import Mathlib

/-!
Verification of the DataSpaces dump style (`src/DSPACES/dump_dspaces.cpp`,
`dump_dspaces.h`) of this LAMMPS fork.

The embedding models, per process (rank), the externally visible behaviour of
`DumpDSpaces::write`, `DumpDSpaces::init_style` and `DumpDSpaces::finalize` as
a list of store events, and the collective reductions `MPI_Allreduce`/`MPI_Scan`
by their defining sums.  Machine integers are modelled as `Nat`/`Int`, with an
explicit `% 2^64` where the source casts to `uint64_t`/`size_t` and the wrap
can matter, and `% 2^64` on casts that are provably in range is kept for
faithfulness.  Doubles only ever get copied here, so they are modelled as `ℚ`.
-/

namespace DumpDSpacesModel

/-- Modulus of `uint64_t` / `size_t` arithmetic. -/
def U64 : ℕ := 2 ^ 64

/-- LAMMPS `MAXSMALLINT` (largest 32-bit signed int), the bound checked in
`DumpDSpaces::write` before growing the pack buffer. -/
def MAXSMALLINT : ℕ := 2 ^ 31 - 1

/-- `MPI_Allreduce(&bnme, &ntotal, 1, MPI_LMP_BIGINT, MPI_SUM, world)`:
the total record count is the sum of every member's local count `nme`.
A process group of size `G` is modelled as ranks `0, …, G-1` with local
counts `counts r`. -/
def ntotal (counts : ℕ → ℕ) (G : ℕ) : ℕ :=
  ∑ i ∈ Finset.range G, counts i

/-- `MPI_Scan(&bnme, &atomOffset, 1, MPI_LMP_BIGINT, MPI_SUM, world)` followed
by `atomOffset -= nme`: the inclusive prefix sum over ranks `0..r`, minus the
rank's own count, computed in `bigint` (signed) arithmetic. -/
def atomOffset (counts : ℕ → ℕ) (r : ℕ) : ℤ :=
  (∑ i ∈ Finset.range (r + 1), (counts i : ℤ)) - (counts r : ℤ)

/-- The exclusive prefix sum `∑_{i<r} counts i`, the value `atomOffset`
is claimed to equal. -/
def prefixSum (counts : ℕ → ℕ) (r : ℕ) : ℕ :=
  ∑ i ∈ Finset.range r, counts i

/-- `dspaces_lb[0] = 0`. -/
def dspaces_lb0 : ℕ := 0

/-- `dspaces_ub[0] = static_cast<uint64_t>(size_one) - 1` in `uint64_t`
arithmetic. -/
def dspaces_ub0 (size_one : ℕ) : ℕ :=
  (size_one % U64 + (U64 - 1)) % U64

/-- `dspaces_lb[1] = static_cast<size_t>(atomOffset)`: the signed 64-bit
offset converted to `size_t` (reduction `mod 2^64`). -/
def dspaces_lb1 (counts : ℕ → ℕ) (r : ℕ) : ℕ :=
  ((atomOffset counts r) % (U64 : ℤ)).toNat

/-- `dspaces_ub[1] = dspaces_lb[1] + static_cast<size_t>(nme) - 1` in
`size_t` arithmetic (so `nme = 0` wraps past zero). -/
def dspaces_ub1 (counts : ℕ → ℕ) (r : ℕ) : ℕ :=
  (dspaces_lb1 counts r + counts r % U64 + (U64 - 1)) % U64

/-- The set of axis-1 (record) indices covered by rank `r`'s bound
`[dspaces_lb[1], dspaces_ub[1]]`. -/
def axis1Cells (counts : ℕ → ℕ) (r : ℕ) : Finset ℕ :=
  Finset.Icc (dspaces_lb1 counts r) (dspaces_ub1 counts r)

/-- `struct dspaces_lmp_meta` of `dump_dspaces.h`: six box extents, the
triclinic flag, three tilt factors, and the `int boundary[3][2]` array
(modelled flattened, row-major, as the `memcpy` copies it). -/
structure DspacesLmpMeta where
  boxxlo : ℚ
  boxxhi : ℚ
  boxylo : ℚ
  boxyhi : ℚ
  boxzlo : ℚ
  boxzhi : ℚ
  triclinic : ℤ
  boxxy : ℚ
  boxxz : ℚ
  boxyz : ℚ
  boundary : List ℤ
deriving DecidableEq

/-- Payload of a `dspaces_put_meta` call. -/
inductive MPayload where
  | int (n : ℤ)
  | str (s : String)
  | metaRec (m : DspacesLmpMeta)
deriving DecidableEq

/-- Externally visible store events of one process, in program order.
`fatal` stands for `error->all`/`error->one`, which terminate the process,
so nothing follows a `fatal` event. -/
inductive Ev where
  | defineGdim (name : String) (g0 g1 : ℕ)
  | putMeta (key : String) (version : ℤ) (payload : MPayload)
  | put (name : String) (version : ℤ) (lb0 lb1 ub0 ub1 : ℕ)
  | fatal (msg : String)
deriving DecidableEq

/-- The message format used by BOTH failure branches in `write`:
`"Error: dspaces_put_tag(), Error Code = \x7b\x7d"` with the status code
substituted. -/
def putErrMsg (code : ℤ) : String :=
  "Error: dspaces_put_tag(), Error Code = " ++ toString code

/-- One rank's trace of `DumpDSpaces::write`.  Inputs: the group's local
counts and size `G`, own rank `r`, `size_one` (fields per record), current
`maxbuf`, the dump `id`, the dump `filename`, the current timestep, and the
status codes the store returns for the two put calls. -/
def writeEvents (counts : ℕ → ℕ) (G r size_one maxbuf : ℕ)
    (dumpId filename : String) (ntimestep metaRet putRet : ℤ) : List Ev :=
  let nme := counts r
  let tot := ntotal counts G
  Ev.defineGdim dumpId (size_one % U64) (tot % U64) ::
    if nme > maxbuf ∧ nme * size_one > MAXSMALLINT then
      [Ev.fatal "Too much per-proc info for dump"]
    else
      Ev.putMeta "natoms" ntimestep (MPayload.int (tot : ℤ)) ::
        if metaRet ≠ 0 then
          [Ev.fatal (putErrMsg metaRet)]
        else
          Ev.put filename ntimestep dspaces_lb0 (dspaces_lb1 counts r)
              (dspaces_ub0 size_one) (dspaces_ub1 counts r) ::
            if putRet ≠ 0 then [Ev.fatal (putErrMsg putRet)] else []

/-- The domain state read by `init_style`: orthogonal bounds, padded
bound-box bounds, tilt factors, triclinic flag, boundary codes. -/
structure DomainState where
  triclinic : ℤ
  boxlo : ℚ × ℚ × ℚ
  boxhi : ℚ × ℚ × ℚ
  boxlo_bound : ℚ × ℚ × ℚ
  boxhi_bound : ℚ × ℚ × ℚ
  xy : ℚ
  xz : ℚ
  yz : ℚ
  boundary : List ℤ
deriving DecidableEq

/-- The geometry record construction of `init_style` (lines 202-222).
`prev` is the previous content of the member `meta`; the orthogonal branch
leaves the tilt fields untouched. -/
def buildMeta (d : DomainState) (prev : DspacesLmpMeta) : DspacesLmpMeta :=
  if d.triclinic = 0 then
    { boxxlo := d.boxlo.1, boxxhi := d.boxhi.1,
      boxylo := d.boxlo.2.1, boxyhi := d.boxhi.2.1,
      boxzlo := d.boxlo.2.2, boxzhi := d.boxhi.2.2,
      triclinic := 0,
      boxxy := prev.boxxy, boxxz := prev.boxxz, boxyz := prev.boxyz,
      boundary := d.boundary }
  else
    { boxxlo := d.boxlo_bound.1, boxxhi := d.boxhi_bound.1,
      boxylo := d.boxlo_bound.2.1, boxyhi := d.boxhi_bound.2.1,
      boxzlo := d.boxlo_bound.2.2, boxzhi := d.boxhi_bound.2.2,
      triclinic := 1,
      boxxy := d.xy, boxxz := d.xz, boxyz := d.yz,
      boundary := d.boundary }

/-- `if (keyword_user[icol].size()) combined += keyword_user[icol]; else
combined += item;` — the label chosen at position `i`. -/
def pickLabel (user : List String) (i : ℕ) (item : String) : String :=
  if (user.getD i "").length ≠ 0 then user.getD i "" else item

/-- The list of labels chosen from position `i` on. -/
def pickList (user : List String) : ℕ → List String → List String
  | _, [] => []
  | i, item :: rest => pickLabel user i item :: pickList user (i + 1) rest

/-- The column-assembly loop of `init_style` (lines 147-155): one iteration
appends a separating space when `combined` is nonempty, then the chosen
label. -/
def assembleGo (user : List String) : ℕ → String → List String → String
  | _, combined, [] => combined
  | i, combined, item :: rest =>
      assembleGo user (i + 1)
        ((if combined.length ≠ 0 then combined ++ " " else combined) ++
          pickLabel user i item) rest

/-- `combined` after the whole loop, starting from the empty string at
column 0 — the assembled column-schema string. -/
def assembleColumns (columnsDefault keywordUser : List String) : String :=
  assembleGo keywordUser 0 "" columnsDefault

/-- Modelled from the spec: the space-joined list of labels the claim
describes (separator between every two consecutive labels). -/
def spaceJoined : List String → String
  | [] => ""
  | [a] => a
  | a :: b :: rest => a ++ " " ++ spaceJoined (b :: rest)

/-- One rank's trace of store calls in `DumpDSpaces::init_style`
(lines 238-264): the four schema/geometry metadata puts, all at version 0,
leader (rank 0) only, each guarded by its own fatal error check with status
codes `r1..r4`. -/
def initStyleEvents (me : ℕ) (dumpId : String)
    (columnsDefault keywordUser : List String) (nfield : ℤ)
    (d : DomainState) (prev : DspacesLmpMeta) (r1 r2 r3 r4 : ℤ) : List Ev :=
  let columns := assembleColumns columnsDefault keywordUser
  if me = 0 then
    Ev.putMeta "column_names_str_size" 0 (MPayload.int (columns.utf8ByteSize : ℤ)) ::
      if r1 ≠ 0 then
        [Ev.fatal ("Error: dspaces_put_meta(column_names_size) failed, Error Code = "
          ++ toString r1)]
      else
        Ev.putMeta "column_names" 0 (MPayload.str columns) ::
          if r2 ≠ 0 then
            [Ev.fatal ("Error: dspaces_put_meta(column_names) failed, Error Code = "
              ++ toString r2)]
          else
            Ev.putMeta "ncolumns" 0 (MPayload.int nfield) ::
              if r3 ≠ 0 then
                [Ev.fatal ("Error: dspaces_put_meta(ncolumns) failed, Error Code = "
                  ++ toString r3)]
              else
                Ev.putMeta dumpId 0 (MPayload.metaRec (buildMeta d prev)) ::
                  if r4 ≠ 0 then
                    [Ev.fatal ("Error: dspaces_put_meta(dspaces_lmp_meta), Error Code = "
                      ++ toString r4)]
                  else []
  else []

/-- A call into the store made by `finalize`. -/
inductive FinCall where
  | fini (h : ℕ)
deriving DecidableEq

/-- The process-wide client handle; `none` is `dspaces_CLIENT_NULL`. -/
def initialClient : Option ℕ := none

/-- `DumpDSpaces::finalize` (lines 53-58): calls `dspaces_fini(client)` when
and only when `client != dspaces_CLIENT_NULL`. -/
def finalizeCalls : Option ℕ → List FinCall
  | none => []
  | some h => [FinCall.fini h]

/-- Whether an event is a `fatal` (process-terminating) event. -/
def isFatal : Ev → Bool
  | Ev.fatal _ => true
  | _ => false

/-- Whether an event is an interaction with the staging store. -/
def isStoreCall : Ev → Bool
  | Ev.defineGdim _ _ _ => true
  | Ev.putMeta _ _ _ => true
  | Ev.put _ _ _ _ _ _ => true
  | Ev.fatal _ => false

/-- The store calls a trace makes before its first fatal event. -/
def storeCallsBeforeFatal (es : List Ev) : List Ev :=
  (es.takeWhile fun e => !(isFatal e)).filter isStoreCall

/-- The key of a metadata put, if the event is one. -/
def metaKeyOf : Ev → Option String
  | Ev.putMeta k _ _ => some k
  | _ => none

/-- Whether an event is an array put. -/
def isPut : Ev → Bool
  | Ev.put _ _ _ _ _ _ => true
  | _ => false

/-- Naive substring test: does `s` contain `pat`? -/
def containsStr (s pat : String) : Bool :=
  (List.range (s.length + 1)).any fun i => pat.toList.isPrefixOf (s.toList.drop i)

/-- Concrete local counts `[2,3,1]` of the spec's end-to-end scenario. -/
def exCounts : ℕ → ℕ := fun r => [2, 3, 1].getD r 0

/-- Concrete local counts with a zero count on rank 0. -/
def zCounts : ℕ → ℕ := fun r => if r = 0 then 0 else 5

/-- A concrete triclinic domain whose orthogonal bounds differ from the
padded bound-box bounds. -/
def exDomTri : DomainState :=
  { triclinic := 1, boxlo := (1, 2, 3), boxhi := (4, 5, 6),
    boxlo_bound := (0, 2, 3), boxhi_bound := (7, 5, 6),
    xy := 1, xz := 0, yz := 0, boundary := [0, 0, 1, 1, 2, 2] }

/-- A concrete orthogonal domain. -/
def exDomOrtho : DomainState :=
  { triclinic := 0, boxlo := (1, 2, 3), boxhi := (4, 5, 6),
    boxlo_bound := (0, 0, 0), boxhi_bound := (0, 0, 0),
    xy := 0, xz := 0, yz := 0, boundary := [0, 0, 0, 0, 1, 1] }

/-- A concrete previous content of the member `meta`. -/
def exMeta0 : DspacesLmpMeta :=
  { boxxlo := 0, boxxhi := 0, boxylo := 0, boxyhi := 0, boxzlo := 0,
    boxzhi := 0, triclinic := 0, boxxy := 9, boxxz := 9, boxyz := 9,
    boundary := [] }

/- ------------------------------------------------------------------ -/
/- Theorems.                                                          -/
/- ------------------------------------------------------------------ -/

/-- The scan-then-subtract offset equals the exclusive prefix sum. -/
theorem atomOffset_eq_prefixSum (counts : ℕ → ℕ) (r : ℕ) :
    atomOffset counts r = (prefixSum counts r : ℤ) := by
  simp [atomOffset, prefixSum, Finset.sum_range_succ]

/-- The exclusive prefix sum is monotone in the rank. -/
theorem prefixSum_mono (counts : ℕ → ℕ) {r s : ℕ} (h : r ≤ s) :
    prefixSum counts r ≤ prefixSum counts s :=
  Finset.sum_le_sum_of_subset (Finset.range_subset.mpr h)

/-- Unfolding the exclusive prefix sum one step. -/
theorem prefixSum_succ (counts : ℕ → ℕ) (r : ℕ) :
    prefixSum counts (r + 1) = prefixSum counts r + counts r :=
  Finset.sum_range_succ counts r

/-- `ntotal` is the group-size prefix sum. -/
theorem ntotal_eq_prefixSum (counts : ℕ → ℕ) (G : ℕ) :
    ntotal counts G = prefixSum counts G := rfl

/-- Adding `N - 1` modulo `N` subtracts one, for values in `[1, N]`. -/
theorem add_pred_mod (N x : ℕ) (h1 : 1 ≤ x) (h2 : x ≤ N) :
    (x + (N - 1)) % N = x - 1 := by
  have hx : x + (N - 1) = (x - 1) + N := by omega
  rw [hx, Nat.add_mod_right]
  exact Nat.mod_eq_of_lt (by omega)

/--
C1: for every process group and assignment of non-negative local counts the
write operation computes `total` as the sum of all members' local counts,
and each rank's local offset as the exclusive prefix sum over strictly
lower ranks; rank 0's offset is 0 and rank `r`'s offset is the sum of
counts of ranks `0..r-1`.
-/
theorem C1_group_offset_aggregator (counts : ℕ → ℕ) (G r : ℕ) :
    ntotal counts G = ∑ i ∈ Finset.range G, counts i ∧
    atomOffset counts 0 = 0 ∧
    atomOffset counts r = ∑ i ∈ Finset.range r, (counts i : ℤ) := by
  refine ⟨rfl, by simp [atomOffset], ?_⟩
  rw [atomOffset_eq_prefixSum]
  simp [prefixSum]

/-- With the prefix sum in `size_t` range, the published lower bound on
axis 1 is exactly the exclusive prefix sum. -/
theorem dspaces_lb1_eq (counts : ℕ → ℕ) (r : ℕ)
    (h0 : prefixSum counts r < U64) :
    dspaces_lb1 counts r = prefixSum counts r := by
  rw [dspaces_lb1, atomOffset_eq_prefixSum,
    Int.emod_eq_of_lt (Int.natCast_nonneg _) (by exact_mod_cast h0)]
  simp

/-- With a positive count and sums in `size_t` range, the published upper
bound on axis 1 is the next prefix sum minus one. -/
theorem dspaces_ub1_eq (counts : ℕ → ℕ) (r : ℕ) (hpos : 0 < counts r)
    (h1 : prefixSum counts (r + 1) < U64)
    (h0 : prefixSum counts r < U64) :
    dspaces_ub1 counts r = prefixSum counts (r + 1) - 1 := by
  have hs := prefixSum_succ counts r
  have hc : counts r % U64 = counts r := Nat.mod_eq_of_lt (by omega)
  rw [dspaces_ub1, dspaces_lb1_eq counts r h0, hc, ← hs]
  exact add_pred_mod U64 (prefixSum counts (r + 1)) (by omega) (by omega)

/-- Under the same conditions, rank `r`'s axis-1 cell set is the half-open
interval between consecutive prefix sums. -/
theorem axis1Cells_eq_Ico (counts : ℕ → ℕ) (r : ℕ) (hpos : 0 < counts r)
    (h1 : prefixSum counts (r + 1) < U64)
    (h0 : prefixSum counts r < U64) :
    axis1Cells counts r =
      Finset.Ico (prefixSum counts r) (prefixSum counts (r + 1)) := by
  rw [axis1Cells, dspaces_lb1_eq counts r h0,
    dspaces_ub1_eq counts r hpos h1 h0, ← Nat.Ico_succ_right]
  congr 1
  have hs := prefixSum_succ counts r
  omega

/-- The half-open intervals between consecutive prefix sums tile the range
up to the group-size prefix sum. -/
theorem biUnion_Ico_prefixSum (counts : ℕ → ℕ) (G : ℕ) :
    (Finset.range G).biUnion
        (fun r => Finset.Ico (prefixSum counts r) (prefixSum counts (r + 1))) =
      Finset.range (prefixSum counts G) := by
  induction G with
  | zero => simp [prefixSum]
  | succ n ih =>
      rw [Finset.range_succ, Finset.biUnion_insert, ih, Finset.range_eq_Ico,
        Finset.union_comm,
        Finset.Ico_union_Ico_eq_Ico (Nat.zero_le _)
          (prefixSum_mono counts (Nat.le_succ n))]

/-- Intervals between consecutive prefix sums of distinct ranks are
disjoint. -/
theorem Ico_prefixSum_disjoint (counts : ℕ → ℕ) {r1 r2 : ℕ} (h : r1 < r2) :
    Disjoint (Finset.Ico (prefixSum counts r1) (prefixSum counts (r1 + 1)))
      (Finset.Ico (prefixSum counts r2) (prefixSum counts (r2 + 1))) := by
  apply Finset.disjoint_left.mpr
  intro k hk1 hk2
  have h1 := (Finset.mem_Ico.mp hk1).2
  have h2 := (Finset.mem_Ico.mp hk2).1
  have h3 : prefixSum counts (r1 + 1) ≤ prefixSum counts r2 :=
    prefixSum_mono counts h
  omega

/--
C2 (amended): for positive local counts (and totals within `size_t`
range), the axis-1 ranges produced by `write` across all `G` processes
exactly tile `[0, total-1]` with no gaps and no overlaps, and every
process's axis-0 range is `[0, size_one - 1]`.  (The positivity hypothesis
is forced: a zero count at offset 0 wraps the upper bound to `2^64 - 1`,
see the counterexample.)
-/
theorem C2_array_placement_tiles (counts : ℕ → ℕ) (G size_one : ℕ)
    (hpos : ∀ r, r < G → 0 < counts r)
    (htot : ntotal counts G < U64)
    (hso : 0 < size_one) (hso64 : size_one < U64) :
    ((Finset.range G).biUnion (fun r => axis1Cells counts r) =
      Finset.range (ntotal counts G)) ∧
    (∀ r1 r2, r1 < G → r2 < G → r1 ≠ r2 →
      Disjoint (axis1Cells counts r1) (axis1Cells counts r2)) ∧
    dspaces_lb0 = 0 ∧ dspaces_ub0 size_one = size_one - 1 := by
  rw [ntotal_eq_prefixSum] at htot
  have hcell : ∀ r, r < G → axis1Cells counts r =
      Finset.Ico (prefixSum counts r) (prefixSum counts (r + 1)) := by
    intro r hr
    exact axis1Cells_eq_Ico counts r (hpos r hr)
      (lt_of_le_of_lt (prefixSum_mono counts hr) htot)
      (lt_of_le_of_lt (prefixSum_mono counts (le_of_lt hr)) htot)
  refine ⟨?_, ?_, rfl, ?_⟩
  · rw [ntotal_eq_prefixSum, ← biUnion_Ico_prefixSum counts G]
    apply Finset.biUnion_congr rfl
    intro a ha
    exact hcell a (Finset.mem_range.mp ha)
  · intro r1 r2 h1 h2 hne
    rw [hcell r1 h1, hcell r2 h2]
    rcases Nat.lt_or_ge r1 r2 with hlt | hge
    · exact Ico_prefixSum_disjoint counts hlt
    · exact (Ico_prefixSum_disjoint counts
        (lt_of_le_of_ne hge (Ne.symm hne))).symm
  · rw [dspaces_ub0, Nat.mod_eq_of_lt hso64]
    exact add_pred_mod U64 size_one hso (le_of_lt hso64)

/--
C2 counterexample: with counts `[0, 5]` the claim as stated fails — rank
0's wrapped range `[0, 2^64-1]` covers cell 5, which lies outside
`[0, total-1] = [0, 4]`, so the union of the ranges is not
`[0, total-1]`.
-/
theorem C2_array_placement_tiles_counterexample :
    ¬ ((Finset.range 2).biUnion (fun r => axis1Cells zCounts r) =
        Finset.range (ntotal zCounts 2)) := by
  intro h
  have h5 : (5 : ℕ) ∈ (Finset.range 2).biUnion (fun r => axis1Cells zCounts r) := by
    apply Finset.mem_biUnion.mpr
    refine ⟨0, by decide, ?_⟩
    have hlb : dspaces_lb1 zCounts 0 = 0 := by decide
    have hub : dspaces_ub1 zCounts 0 = U64 - 1 := by decide
    rw [axis1Cells, hlb, hub]
    exact Finset.mem_Icc.mpr ⟨Nat.zero_le _, by decide⟩
  rw [h] at h5
  have h2 : ntotal zCounts 2 = 5 := by decide
  rw [h2] at h5
  exact absurd (Finset.mem_range.mp h5) (by decide)

/-- Witness for C2 at the spec's end-to-end scenario: three processes with
counts `[2,3,1]` and four fields. -/
theorem C2_array_placement_tiles_witness :
    (∀ r, r < 3 → 0 < exCounts r) ∧ ntotal exCounts 3 < U64 ∧
    (0 : ℕ) < 4 ∧ (4 : ℕ) < U64 ∧
    (((Finset.range 3).biUnion (fun r => axis1Cells exCounts r) =
        Finset.range (ntotal exCounts 3)) ∧
      (∀ r1 r2, r1 < 3 → r2 < 3 → r1 ≠ r2 →
        Disjoint (axis1Cells exCounts r1) (axis1Cells exCounts r2)) ∧
      dspaces_lb0 = 0 ∧ dspaces_ub0 4 = 4 - 1) :=
  ⟨by decide, by decide, by decide, by decide,
    C2_array_placement_tiles exCounts 3 4 (by decide) (by decide)
      (by decide) (by decide)⟩

/--
C3 (code bug): with a zero local count the source still reaches
`dspaces_put` — nothing skips it — and the `uint64_t` computation
`lb[1] + nme - 1` wraps, so the published upper bound on axis 1 is
`2^64 - 1`.  Evaluated at one process with local count 0, `size_one = 3`,
dump id "1", filename "dump.out", timestep 5, both puts succeeding.
-/
theorem C3_zero_count_put_not_skipped :
    writeEvents (fun _ => 0) 1 0 3 0 "1" "dump.out" 5 0 0 =
      [Ev.defineGdim "1" 3 0, Ev.putMeta "natoms" 5 (MPayload.int 0),
       Ev.put "dump.out" 5 0 0 2 (U64 - 1)] ∧
    ((writeEvents (fun _ => 0) 1 0 3 0 "1" "dump.out" 5 0 0).filter
        isPut).length = 1 := by
  exact ⟨by decide, by decide⟩

/--
C5 (code bug): the global shape is declared (first, and on every call of
`write`) under the dump `id`, while the array slice is put under
`filename` — two different names whenever `id ≠ filename`.  Evaluated at
two processes with counts 4 each, rank 0, `size_one = 3`, id "1",
filename "dump.out", timestep 7.
-/
theorem C5_gdim_name_differs_from_put_name :
    writeEvents (fun _ => 4) 2 0 3 10 "1" "dump.out" 7 0 0 =
      [Ev.defineGdim "1" 3 8, Ev.putMeta "natoms" 7 (MPayload.int 8),
       Ev.put "dump.out" 7 0 0 2 3] ∧
    ("1" : String) ≠ "dump.out" := by
  exact ⟨by decide, by decide⟩

/--
C4 (amended): a non-success status from either put call in `write` is
fatal for the observing process — the trace ends at the error, the message
carries the numeric status code, and no subsequent publish step runs (a
failed record-count metadata put prevents the array-slice put) — but the
message carries the fixed label `dspaces_put_tag()` in both branches
rather than the name of the specific operation that failed.
-/
theorem C4_put_failure_fatal (counts : ℕ → ℕ) (G r size_one maxbuf : ℕ)
    (dumpId filename : String) (ts metaRet putRet : ℤ)
    (hbuf : ¬(counts r > maxbuf ∧ counts r * size_one > MAXSMALLINT)) :
    (metaRet ≠ 0 →
      writeEvents counts G r size_one maxbuf dumpId filename ts metaRet putRet =
        [Ev.defineGdim dumpId (size_one % U64) (ntotal counts G % U64),
         Ev.putMeta "natoms" ts (MPayload.int (ntotal counts G)),
         Ev.fatal (putErrMsg metaRet)]) ∧
    (metaRet = 0 → putRet ≠ 0 →
      writeEvents counts G r size_one maxbuf dumpId filename ts metaRet putRet =
        [Ev.defineGdim dumpId (size_one % U64) (ntotal counts G % U64),
         Ev.putMeta "natoms" ts (MPayload.int (ntotal counts G)),
         Ev.put filename ts dspaces_lb0 (dspaces_lb1 counts r)
           (dspaces_ub0 size_one) (dspaces_ub1 counts r),
         Ev.fatal (putErrMsg putRet)]) ∧
    (∀ c : ℤ, putErrMsg c =
      "Error: dspaces_put_tag(), Error Code = " ++ toString c) := by
  refine ⟨fun hm => ?_, fun hm hp => ?_, fun _ => rfl⟩
  · simp [writeEvents, hbuf, hm]
  · simp [writeEvents, hbuf, hm, hp]

/--
C4 counterexample: when the record-count metadata put (`dspaces_put_meta`)
fails with status 7, the fatal message does not contain the name of the
operation that failed — it says `dspaces_put_tag()` — though it does
contain the status code.
-/
theorem C4_put_failure_fatal_counterexample :
    writeEvents (fun _ => 2) 1 0 3 10 "1" "dump.out" 9 7 0 =
      [Ev.defineGdim "1" 3 2, Ev.putMeta "natoms" 9 (MPayload.int 2),
       Ev.fatal (putErrMsg 7)] ∧
    containsStr (putErrMsg 7) "dspaces_put_meta" = false ∧
    containsStr (putErrMsg 7) "7" = true := by
  exact ⟨by decide, by decide, by decide⟩

/-- Witness for C4: a failed record-count metadata put (status 7) on a
process with 2 records, 3 fields, buffer already large enough. -/
theorem C4_put_failure_fatal_witness :
    ((7 : ℤ) ≠ 0) ∧
    writeEvents (fun _ => 2) 1 0 3 10 "1" "dump.out" 9 7 0 =
      [Ev.defineGdim "1" 3 2, Ev.putMeta "natoms" 9 (MPayload.int 2),
       Ev.fatal (putErrMsg 7)] :=
  ⟨by decide,
    (C4_put_failure_fatal (fun _ => 2) 1 0 3 10 "1" "dump.out" 9 7 0
      (by decide)).1 (by decide)⟩

/--
C6 (amended): a buffer-size overflow (`nme * size_one > MAXSMALLINT` with
a growing buffer) is fatal before either put call of the snapshot — but
after the shape declaration, which the source issues first.
-/
theorem C6_overflow_fatal_before_puts (counts : ℕ → ℕ)
    (G r size_one maxbuf : ℕ) (dumpId filename : String)
    (ts metaRet putRet : ℤ)
    (h1 : counts r > maxbuf) (h2 : counts r * size_one > MAXSMALLINT) :
    writeEvents counts G r size_one maxbuf dumpId filename ts metaRet putRet =
      [Ev.defineGdim dumpId (size_one % U64) (ntotal counts G % U64),
       Ev.fatal "Too much per-proc info for dump"] := by
  simp [writeEvents, h1, h2]

/--
C6 counterexample: on an overflowing input the trace already contains a
store call (the shape declaration) before the fatal overflow report, so
the claim that no store call precedes the overflow check is false.
-/
theorem C6_overflow_counterexample :
    storeCallsBeforeFatal (writeEvents (fun _ => 2 ^ 31) 1 0 1 0 "d" "f" 3 0 0) =
      [Ev.defineGdim "d" 1 (2 ^ 31 % U64)] ∧
    storeCallsBeforeFatal (writeEvents (fun _ => 2 ^ 31) 1 0 1 0 "d" "f" 3 0 0) ≠ [] ∧
    (writeEvents (fun _ => 2 ^ 31) 1 0 1 0 "d" "f" 3 0 0).getLast? =
      some (Ev.fatal "Too much per-proc info for dump") := by
  exact ⟨by decide, by decide, by decide⟩

/-- Witness for C6: one process with `2^31` records and one field. -/
theorem C6_overflow_fatal_before_puts_witness :
    ((2 : ℕ) ^ 31 > 0) ∧ ((2 : ℕ) ^ 31 * 1 > MAXSMALLINT) ∧
    writeEvents (fun _ => 2 ^ 31) 1 0 1 0 "d" "f" 3 0 0 =
      [Ev.defineGdim "d" 1 (2 ^ 31 % U64),
       Ev.fatal "Too much per-proc info for dump"] :=
  ⟨by decide, by decide,
    C6_overflow_fatal_before_puts (fun _ => 2 ^ 31) 1 0 1 0 "d" "f" 3 0 0
      (by decide) (by decide)⟩

/--
C7: the one-time schema metadata is published only by rank 0 (the
leader), only in `init_style`, all four entries at version 0 and in
order — column-schema byte length, column-schema string, column count,
box-geometry record; non-leader ranks issue none of these puts, and the
per-snapshot `write` trace contains no metadata put other than
`"natoms"`.
-/
theorem C7_schema_metadata_leader_only :
    (∀ me dumpId columnsDefault keywordUser nfield d prev r1 r2 r3 r4,
      me ≠ 0 →
      initStyleEvents me dumpId columnsDefault keywordUser nfield d prev
        r1 r2 r3 r4 = []) ∧
    (∀ dumpId columnsDefault keywordUser nfield d prev,
      initStyleEvents 0 dumpId columnsDefault keywordUser nfield d prev
          0 0 0 0 =
        [Ev.putMeta "column_names_str_size" 0
            (MPayload.int
              ((assembleColumns columnsDefault keywordUser).utf8ByteSize : ℤ)),
         Ev.putMeta "column_names" 0
            (MPayload.str (assembleColumns columnsDefault keywordUser)),
         Ev.putMeta "ncolumns" 0 (MPayload.int nfield),
         Ev.putMeta dumpId 0 (MPayload.metaRec (buildMeta d prev))]) ∧
    (∀ counts G r size_one maxbuf dumpId filename ts mr pr e,
      e ∈ writeEvents counts G r size_one maxbuf dumpId filename ts mr pr →
      metaKeyOf e = none ∨ metaKeyOf e = some "natoms") := by
  refine ⟨?_, ?_, ?_⟩
  · intro me dumpId cd ku nf d prev r1 r2 r3 r4 hme
    simp [initStyleEvents, hme]
  · intro dumpId cd ku nf d prev
    simp [initStyleEvents]
  · intro counts G r so mb dumpId fn ts mr pr e he
    simp only [writeEvents, List.mem_cons] at he
    rcases he with rfl | he
    · exact Or.inl rfl
    · split at he
      · simp only [List.mem_singleton] at he
        subst he
        exact Or.inl rfl
      · simp only [List.mem_cons] at he
        rcases he with rfl | he
        · exact Or.inr rfl
        · split at he
          · simp only [List.mem_singleton] at he
            subst he
            exact Or.inl rfl
          · simp only [List.mem_cons] at he
            rcases he with rfl | he
            · exact Or.inl rfl
            · split at he
              · simp only [List.mem_singleton] at he
                subst he
                exact Or.inl rfl
              · simp at he

/-- Witness for C7: a non-leader rank publishes nothing, and the shape
declaration event of a `write` trace is no metadata put. -/
theorem C7_schema_metadata_leader_only_witness :
    initStyleEvents 1 "1" ["x"] ["Y"] 1 exDomTri exMeta0 0 0 0 0 = [] ∧
    (metaKeyOf (Ev.defineGdim "1" 3 0) = none ∨
      metaKeyOf (Ev.defineGdim "1" 3 0) = some "natoms") :=
  ⟨C7_schema_metadata_leader_only.1 1 "1" ["x"] ["Y"] 1 exDomTri exMeta0
      0 0 0 0 (by decide),
    C7_schema_metadata_leader_only.2.2 (fun _ => 0) 1 0 3 0 "1" "dump.out"
      5 0 0 (Ev.defineGdim "1" 3 0) (by decide)⟩

/-- A nonempty string has nonzero length. -/
theorem length_ne_zero_of_ne_empty {s : String} (h : s ≠ "") :
    s.length ≠ 0 := by
  intro hz
  apply h
  cases s with
  | mk data =>
    cases data with
    | nil => rfl
    | cons c cs =>
      have hlen : (String.mk (c :: cs)).length = cs.length + 1 := rfl
      omega

/-- Joining with an already-separated head. -/
theorem spaceJoined_cons_append (a b : String) (l : List String) :
    spaceJoined ((a ++ " " ++ b) :: l) = a ++ " " ++ spaceJoined (b :: l) := by
  cases l with
  | nil => rfl
  | cons c t => simp [spaceJoined, String.append_assoc]

/-- The assembly loop started from a nonempty accumulator produces the
space-joined list headed by that accumulator. -/
theorem assembleGo_eq (user : List String) (items : List String) :
    ∀ (i : ℕ) (combined : String), combined.length ≠ 0 →
      assembleGo user i combined items =
        spaceJoined (combined :: pickList user i items) := by
  induction items with
  | nil => intro i c _; rfl
  | cons item rest ih =>
    intro i c h
    have hstep : assembleGo user i c (item :: rest) =
        assembleGo user (i + 1) (c ++ " " ++ pickLabel user i item) rest := by
      show assembleGo user (i + 1)
          ((if c.length ≠ 0 then c ++ " " else c) ++ pickLabel user i item)
          rest = _
      rw [if_pos h]
    have hne : (c ++ " " ++ pickLabel user i item).length ≠ 0 := by
      simp only [String.length_append]
      omega
    calc assembleGo user i c (item :: rest)
        = spaceJoined ((c ++ " " ++ pickLabel user i item) ::
            pickList user (i + 1) rest) := by
          rw [hstep, ih (i + 1) (c ++ " " ++ pickLabel user i item) hne]
      _ = c ++ " " ++ spaceJoined (pickLabel user i item ::
            pickList user (i + 1) rest) :=
          spaceJoined_cons_append c (pickLabel user i item)
            (pickList user (i + 1) rest)
      _ = spaceJoined (c :: pickList user i (item :: rest)) := rfl

/--
C8: the assembled column schema is the space-joined list of labels where a
user-supplied label at position `i` replaces the default at position `i`
and defaults fill unlabeled positions (the defaults, being words, are
nonempty); in particular, for defaults `["x","y","z","vx"]` and the user
override `"Y"` at position 1, the assembled string is `"x Y z vx"`.
-/
theorem C8_column_schema_assembly :
    (∀ columnsDefault keywordUser : List String,
      (∀ d₀ ∈ columnsDefault, d₀ ≠ "") →
      assembleColumns columnsDefault keywordUser =
        spaceJoined (pickList keywordUser 0 columnsDefault)) ∧
    assembleColumns ["x", "y", "z", "vx"] ["", "Y", "", ""] = "x Y z vx" := by
  constructor
  · intro cd ku h
    cases cd with
    | nil => rfl
    | cons d rest =>
      have hd : d ≠ "" := h d (List.mem_cons_self d rest)
      have hpick : (pickLabel ku 0 d).length ≠ 0 := by
        rw [pickLabel]
        split
        · assumption
        · exact length_ne_zero_of_ne_empty hd
      have hstep : assembleColumns (d :: rest) ku =
          assembleGo ku 1 (pickLabel ku 0 d) rest := by
        show assembleGo ku (0 + 1)
            ((if ("" : String).length ≠ 0 then "" ++ " " else "") ++
              pickLabel ku 0 d) rest =
          assembleGo ku 1 (pickLabel ku 0 d) rest
        rw [if_neg (by decide), String.empty_append]
      rw [hstep, assembleGo_eq ku rest 1 (pickLabel ku 0 d) hpick]
      rfl
  · decide

/-- Witness for C8 at the spec's example inputs. -/
theorem C8_column_schema_assembly_witness :
    (∀ d₀ ∈ ["x", "y", "z", "vx"], d₀ ≠ ("" : String)) ∧
    assembleColumns ["x", "y", "z", "vx"] ["", "Y", "", ""] =
      spaceJoined (pickList ["", "Y", "", ""] 0 ["x", "y", "z", "vx"]) :=
  ⟨by decide,
    C8_column_schema_assembly.1 ["x", "y", "z", "vx"] ["", "Y", "", ""]
      (by decide)⟩

/--
C9 (amended): the geometry record always carries the boundary-code array
unchanged (3 axes × 2 faces); for an orthogonal box its six box fields are
the orthogonal box low/high per axis and the tilt fields are left
untouched; for a triclinic box its six box fields hold the padded
box-bound low/high — replacing, not accompanying, the orthogonal
values — and the three tilt factors are recorded.
-/
theorem C9_geometry_record (d : DomainState) (prev : DspacesLmpMeta)
    (hlen : d.boundary.length = 6) :
    ((buildMeta d prev).boundary = d.boundary ∧
      (buildMeta d prev).boundary.length = 6) ∧
    (d.triclinic = 0 →
      buildMeta d prev =
        { boxxlo := d.boxlo.1, boxxhi := d.boxhi.1,
          boxylo := d.boxlo.2.1, boxyhi := d.boxhi.2.1,
          boxzlo := d.boxlo.2.2, boxzhi := d.boxhi.2.2,
          triclinic := 0,
          boxxy := prev.boxxy, boxxz := prev.boxxz, boxyz := prev.boxyz,
          boundary := d.boundary }) ∧
    (d.triclinic ≠ 0 →
      buildMeta d prev =
        { boxxlo := d.boxlo_bound.1, boxxhi := d.boxhi_bound.1,
          boxylo := d.boxlo_bound.2.1, boxyhi := d.boxhi_bound.2.1,
          boxzlo := d.boxlo_bound.2.2, boxzhi := d.boxhi_bound.2.2,
          triclinic := 1,
          boxxy := d.xy, boxxz := d.xz, boxyz := d.yz,
          boundary := d.boundary }) := by
  refine ⟨⟨?_, ?_⟩, fun h0 => ?_, fun h1 => ?_⟩
  · rw [buildMeta]
    split <;> rfl
  · rw [buildMeta]
    split <;> simp [hlen]
  · rw [buildMeta, if_pos h0]
  · rw [buildMeta, if_neg h1]

/--
C9 counterexample: for a triclinic box whose padded bound differs from the
orthogonal bound, the record's x-low field is the padded bound value, not
the orthogonal box low the claim says is always present.
-/
theorem C9_geometry_record_counterexample :
    (buildMeta exDomTri exMeta0).boxxlo ≠ exDomTri.boxlo.1 ∧
    (buildMeta exDomTri exMeta0).triclinic = 1 := by
  exact ⟨by decide, by decide⟩

/-- Witness for C9 at the concrete triclinic domain. -/
theorem C9_geometry_record_witness :
    exDomTri.boundary.length = 6 ∧ exDomTri.triclinic ≠ 0 ∧
    buildMeta exDomTri exMeta0 =
      { boxxlo := 0, boxxhi := 7, boxylo := 2, boxyhi := 5,
        boxzlo := 3, boxzhi := 6, triclinic := 1,
        boxxy := 1, boxxz := 0, boxyz := 0,
        boundary := [0, 0, 1, 1, 2, 2] } :=
  ⟨by decide, by decide,
    (C9_geometry_record exDomTri exMeta0 (by decide)).2.2 (by decide)⟩

/--
C10: `finalize` on a null (never-initialized) client handle performs no
store call at all, and on a non-null handle calls the store's finalize
exactly once.
-/
theorem C10_finalize_null_noop :
    finalizeCalls initialClient = [] ∧
    finalizeCalls none = [] ∧
    ∀ h : ℕ, finalizeCalls (some h) = [FinCall.fini h] ∧
      (finalizeCalls (some h)).length = 1 :=
  ⟨rfl, rfl, fun _ => ⟨rfl, rfl⟩⟩

end DumpDSpacesModel
